import Mathlib

/-!
# Verification of the retrieval core of the research-assistant repository

Shallow embedding of `src/utils/rag.py` and `src/app_original.py`.
Python strings are modelled as `List Char` (slicing `text[a:b]` is
`(text.drop a).take (b - a)`); external capabilities (the Azure embedding
model, sklearn's `cosine_similarity`, the Tavily client, the filesystem and
the document parsers) are parameters of the definitions that call them.
-/

/-! ## DocumentProcessor.chunk_text (src/utils/rag.py lines 69-81) -/

/-- The `while start < text_length` loop of `DocumentProcessor.chunk_text`,
phrased on the suffix `text[start:]`: while the suffix is nonempty, emit
`text[start:start + chunk_size]` (i.e. `take chunk_size` of the suffix) and
advance `start` by `chunk_size - overlap` (i.e. drop that many characters).
The source loop has no termination guard, so the model is fuelled: `none`
means the fuel was exhausted before the loop finished. -/
def chunkLoop (chunk_size overlap : Nat) : Nat → List Char → Option (List (List Char))
  | _, [] => some []
  | 0, _ :: _ => none
  | fuel + 1, c :: cs =>
    match chunkLoop chunk_size overlap fuel ((c :: cs).drop (chunk_size - overlap)) with
    | none => none
    | some rest => some ((c :: cs).take chunk_size :: rest)

/-- `DocumentProcessor.chunk_text(text, chunk_size=1000, overlap=200)`, run
with fuel `text.length + 1`.  When `overlap < chunk_size` the window advances
by at least one character per iteration, so this fuel always suffices
(`chunk_text_eq_chunkAux`); when `overlap ≥ chunk_size` the source loop never
terminates and the model returns `none` for every amount of fuel. -/
def chunk_text (text : List Char) (chunk_size : Nat := 1000) (overlap : Nat := 200) :
    Option (List (List Char)) :=
  chunkLoop chunk_size overlap (text.length + 1) text

/-- The same loop as a structurally terminating function, for reasoning:
`step` is the window advance `chunk_size - overlap`, forced to at least `1`
so that the recursion terminates.  `chunkLoop` agrees with it whenever
`overlap < chunk_size` (`chunkLoop_eq_chunkAux`). -/
def chunkAux (step chunk_size : Nat) (t : List Char) : List (List Char) :=
  if h : t.isEmpty then []
  else t.take chunk_size :: chunkAux step chunk_size (t.drop (max 1 step))
termination_by t.length
decreasing_by
  have ht : t ≠ [] := by simpa [List.isEmpty_iff] using h
  have hpos : 0 < t.length := List.length_pos.mpr ht
  simp only [List.length_drop]
  omega

theorem chunkAux_nil (step chunk_size : Nat) : chunkAux step chunk_size [] = [] := by
  rw [chunkAux]
  simp

theorem chunkAux_cons (step chunk_size : Nat) (c : Char) (cs : List Char) :
    chunkAux step chunk_size (c :: cs)
      = (c :: cs).take chunk_size :: chunkAux step chunk_size ((c :: cs).drop (max 1 step)) := by
  rw [chunkAux]
  simp

/-- With `overlap < chunk_size`, any fuel of at least `text.length` makes the
fuelled loop finish, with the same chunks as the terminating version. -/
theorem chunkLoop_eq_chunkAux (chunk_size overlap : Nat) (hov : overlap < chunk_size) :
    ∀ (fuel : Nat) (t : List Char), t.length ≤ fuel →
      chunkLoop chunk_size overlap fuel t = some (chunkAux (chunk_size - overlap) chunk_size t) := by
  intro fuel
  induction fuel with
  | zero =>
    intro t ht
    have : t = [] := List.eq_nil_of_length_eq_zero (Nat.le_zero.mp ht)
    subst this
    simp [chunkLoop, chunkAux_nil]
  | succ n ih =>
    intro t ht
    match t with
    | [] => simp [chunkLoop, chunkAux_nil]
    | c :: cs =>
      have hstep : 1 ≤ chunk_size - overlap := by omega
      have hlen : ((c :: cs).drop (chunk_size - overlap)).length ≤ n := by
        simp only [List.length_drop, List.length_cons]
        simp only [List.length_cons] at ht
        omega
      have hmax : max 1 (chunk_size - overlap) = chunk_size - overlap := by omega
      simp only [chunkLoop, ih _ hlen, chunkAux_cons, hmax]

/-- `chunk_text` always terminates within its fuel when `overlap < chunk_size`. -/
theorem chunk_text_eq_chunkAux (text : List Char) (chunk_size overlap : Nat)
    (hov : overlap < chunk_size) :
    chunk_text text chunk_size overlap
      = some (chunkAux (chunk_size - overlap) chunk_size text) :=
  chunkLoop_eq_chunkAux chunk_size overlap hov _ text (Nat.le_succ _)

/-- The loop emits one chunk for every multiple of `step` below the length:
`ceil(length / step)` chunks in total. -/
theorem chunkAux_length (step chunk_size : Nat) (hstep : 1 ≤ step) (t : List Char) :
    (chunkAux step chunk_size t).length = (t.length + step - 1) / step := by
  generalize hn : t.length = n
  induction n using Nat.strong_induction_on generalizing t with
  | _ n ih =>
    match t with
    | [] =>
      have h0 : n = 0 := by simp only [List.length_nil] at hn; omega
      subst h0
      rw [chunkAux_nil]
      simp only [List.length_nil]
      exact (Nat.div_eq_of_lt (by omega)).symm
    | c :: cs =>
      have hpos : 0 < n := by simp only [List.length_cons] at hn; omega
      have hmax : max 1 step = step := by omega
      have hdrop : ((c :: cs).drop step).length = n - step := by
        simp only [List.length_drop, hn]
      have ihd := ih (n - step) (by omega) ((c :: cs).drop step) hdrop
      rw [chunkAux_cons, hmax]
      simp only [List.length_cons, ihd]
      by_cases hns : step ≤ n
      · have h1 : n - step + step - 1 = n - 1 := by omega
        have h2 : n + step - 1 = (n - 1) + step := by omega
        rw [h1, h2, Nat.add_div_right _ (by omega : 0 < step)]
      · have h0 : n - step = 0 := by omega
        have hone : (n + step - 1) / step = 1 :=
          Nat.div_eq_of_lt_le (by omega) (by omega)
        have hz : (0 + step - 1) / step = 0 := Nat.div_eq_of_lt (by omega)
        rw [h0, hz, hone]

/-! ## Claim C2: the chunk count -/

/-- The chunk-count formula the spec states,
`ceil((len(text) - overlap) / (chunk_size - overlap))`, as a natural-number
computation (in the compared cases `len(text) ≥ overlap`, so the truncated
subtraction agrees with the spec's integer subtraction). -/
def specChunkCount (len chunk_size overlap : Nat) : Nat :=
  ((len - overlap) + (chunk_size - overlap) - 1) / (chunk_size - overlap)

/-- C2, amended: for `chunk_size > overlap ≥ 0` the number of chunks is
`ceil(len(text) / (chunk_size - overlap))` — the loop keeps emitting while
`start < len(text)`, including a final chunk that is pure overlap when a
chunk ends exactly at the end of the text — and empty text yields zero
chunks (the formula gives `0` at `len = 0`). -/
theorem chunk_text_count (text : List Char) (chunk_size overlap : Nat)
    (hov : overlap < chunk_size) :
    (chunk_text text chunk_size overlap).map List.length
      = some ((text.length + (chunk_size - overlap) - 1) / (chunk_size - overlap)) := by
  rw [chunk_text_eq_chunkAux text chunk_size overlap hov, Option.map_some']
  rw [chunkAux_length (chunk_size - overlap) chunk_size (by omega) text]

/-- Witness for `chunk_text_count` at `text = "abcdefgh"`, `chunk_size = 5`,
`overlap = 2`: three chunks. -/
theorem chunk_text_count_witness :
    (2 : Nat) < 5
      ∧ (chunk_text "abcdefgh".data 5 2).map List.length = some (("abcdefgh".data.length + (5 - 2) - 1) / (5 - 2)) :=
  ⟨by omega, chunk_text_count "abcdefgh".data 5 2 (by omega)⟩

/-- C2, counterexample to the claim as stated: for the two-character text
`"ab"` with `chunk_size = 2`, `overlap = 1`, the code produces the chunks
`["ab", "b"]` — two of them — while the spec's formula
`ceil((len - overlap) / (chunk_size - overlap)) = ceil(1 / 1)` gives one. -/
theorem chunk_text_count_spec_formula_false :
    chunk_text ['a', 'b'] 2 1 = some [['a', 'b'], ['b']]
      ∧ (chunk_text ['a', 'b'] 2 1).map List.length = some 2
      ∧ specChunkCount 2 2 1 = 1 := by
  refine ⟨by decide, by decide, by decide⟩

/-! ## Claim C3: reassembling the chunks -/

/-- Undo the overlap: keep the first chunk whole and strip the first
`overlap` characters from every later chunk, then concatenate. -/
def reassemble (overlap : Nat) : List (List Char) → List Char
  | [] => []
  | c :: rest => c ++ (rest.map (List.drop overlap)).flatten

theorem reassembleTail_chunkAux (step chunk_size overlap : Nat) (hstep : 1 ≤ step)
    (hcs : overlap + step = chunk_size) :
    ∀ t : List Char, ((chunkAux step chunk_size t).map (List.drop overlap)).flatten = t.drop overlap := by
  intro t
  generalize hn : t.length = n
  induction n using Nat.strong_induction_on generalizing t with
  | _ n ih =>
    match t with
    | [] => simp [chunkAux_nil]
    | c :: cs =>
      have hpos : 0 < n := by simp only [List.length_cons] at hn; omega
      have hmax : max 1 step = step := by omega
      have hdrop : ((c :: cs).drop step).length = n - step := by
        simp only [List.length_drop, hn]
      have ihd := ih (n - step) (by omega) ((c :: cs).drop step) hdrop
      rw [chunkAux_cons, hmax]
      simp only [List.map_cons, List.flatten_cons, ihd]
      have h1 : chunk_size - overlap = step := by omega
      rw [List.drop_take, List.drop_drop, h1, Nat.add_comm step overlap, ← List.drop_drop]
      exact List.take_append_drop step (List.drop overlap (c :: cs))

/-- Reassembling the chunks of a text recovers the text, for the terminating
version of the loop. -/
theorem reassemble_chunkAux (step chunk_size overlap : Nat) (hstep : 1 ≤ step)
    (hcs : overlap + step = chunk_size) (t : List Char) :
    reassemble overlap (chunkAux step chunk_size t) = t := by
  match t with
  | [] => simp [chunkAux_nil, reassemble]
  | c :: cs =>
    have hmax : max 1 step = step := by omega
    rw [chunkAux_cons, hmax]
    simp only [reassemble]
    rw [reassembleTail_chunkAux step chunk_size overlap hstep hcs]
    rw [List.drop_drop]
    have h3 : step + overlap = chunk_size := by omega
    rw [h3, List.take_append_drop]

/-- C3, confirmed: for every text and `chunk_size > overlap ≥ 0`,
concatenating the chunks with the leading `overlap` characters removed from
every chunk after the first reconstructs the text exactly (a trailing chunk
shorter than `overlap` contributes nothing, like the Python slice). -/
theorem chunk_text_reassemble (text : List Char) (chunk_size overlap : Nat)
    (hov : overlap < chunk_size) :
    (chunk_text text chunk_size overlap).map (reassemble overlap) = some text := by
  rw [chunk_text_eq_chunkAux text chunk_size overlap hov, Option.map_some']
  rw [reassemble_chunkAux (chunk_size - overlap) chunk_size overlap (by omega) (by omega)]

/-- Witness for `chunk_text_reassemble` on `"abcdefghij"`, `chunk_size = 5`,
`overlap = 2`. -/
theorem chunk_text_reassemble_witness :
    (2 : Nat) < 5
      ∧ (chunk_text "abcdefghij".data 5 2).map (reassemble 2) = some "abcdefghij".data :=
  ⟨by omega, chunk_text_reassemble "abcdefghij".data 5 2 (by omega)⟩

/-! ## Claim C7: no guard for `overlap ≥ chunk_size` -/

/-- C7: the code has no guard for `overlap ≥ chunk_size`.  At
`chunk_text("a", chunk_size=1, overlap=1)` the window never advances
(`start = end - overlap` keeps `start = 0 < 1`), so no amount of fuel makes
the loop finish: the source loops forever. -/
theorem chunk_text_overlap_guard_missing :
    (∀ fuel : Nat, chunkLoop 1 1 fuel ['a'] = none) ∧ chunk_text ['a'] 1 1 = none := by
  constructor
  · intro fuel
    induction fuel with
    | zero => rfl
    | succ n ih => simp only [chunkLoop, List.drop, ih]
  · rfl

/-! ## The vector store (src/utils/rag.py lines 83-161)

Python strings are `List Char` here as well.  The two external numeric
capabilities of `VectorStore.search` are parameters: `embed` models
`AzureEmbeddingModel.get_single_embedding` (whose result Python tests with
`if not query_embedding`, catching both `None` and an empty vector), and
`sim` models one entry of sklearn's
`cosine_similarity([query_embedding], self.embeddings)[0]`, numeric scores
modelled as rationals. -/

/-- One entry of the `documents` list of the store. -/
structure Document where
  content : List Char
  source : List Char
  chunk_id : Nat
  file_type : List Char
  is_default : Bool
deriving DecidableEq, Inhabited

/-- One entry of the list `VectorStore.search` returns:
`{**self.documents[idx], 'similarity': similarities[idx]}`. -/
structure SearchResult where
  doc : Document
  similarity : ℚ
deriving DecidableEq

/-- The in-memory state of `VectorStore`: the two parallel lists. -/
structure VectorStore where
  documents : List Document
  embeddings : List (List ℚ)
deriving DecidableEq

/-- The comparison `np.argsort` sorts the index list by: strictly smaller
similarity first, equal similarities by position.  Breaking ties by index
makes this a linear order on the distinct indices, which is exactly the
order a stable ascending sort realises; numpy's default sort leaves the
order of equal keys unspecified, and the stable order is the deterministic
model used here. -/
def argsortLe (sims : List ℚ) (i j : Nat) : Prop :=
  sims.getD i 0 < sims.getD j 0 ∨ (sims.getD i 0 = sims.getD j 0 ∧ i ≤ j)

instance (sims : List ℚ) (i j : Nat) : Decidable (argsortLe sims i j) :=
  inferInstanceAs (Decidable (_ ∨ _))

instance (sims : List ℚ) : IsTotal Nat (argsortLe sims) where
  total i j := by
    rcases lt_trichotomy (sims.getD i 0) (sims.getD j 0) with h | h | h
    · exact Or.inl (Or.inl h)
    · rcases Nat.le_total i j with hij | hij
      · exact Or.inl (Or.inr ⟨h, hij⟩)
      · exact Or.inr (Or.inr ⟨h.symm, hij⟩)
    · exact Or.inr (Or.inl h)

instance (sims : List ℚ) : IsTrans Nat (argsortLe sims) where
  trans i j k hij hjk := by
    rcases hij with h1 | ⟨e1, l1⟩
    · rcases hjk with h2 | ⟨e2, l2⟩
      · exact Or.inl (h1.trans h2)
      · exact Or.inl (by rw [← e2]; exact h1)
    · rcases hjk with h2 | ⟨e2, l2⟩
      · exact Or.inl (by rw [e1]; exact h2)
      · exact Or.inr ⟨e1.trans e2, l1.trans l2⟩

/-- `np.argsort(similarities)`: the index list `[0, …, len-1]` sorted in
ascending similarity order. -/
def argsort (sims : List ℚ) : List Nat :=
  List.insertionSort (argsortLe sims) (List.range sims.length)

/-- The similarity row sklearn returns:
`cosine_similarity([query_embedding], self.embeddings)[0]`. -/
def simRow (sim : List ℚ → List ℚ → ℚ) (q : List ℚ) (store : VectorStore) : List ℚ :=
  store.embeddings.map (sim q)

/-- `np.argsort(similarities)[::-1][:top_k]`. -/
def topIndices (sims : List ℚ) (top_k : Nat) : List Nat :=
  (argsort sims).reverse.take top_k

/-- `VectorStore.search` (src/utils/rag.py lines 142-161). -/
def VectorStore.search (store : VectorStore) (embed : List Char → Option (List ℚ))
    (sim : List ℚ → List ℚ → ℚ) (query : List Char) (top_k : Nat := 5) :
    List SearchResult :=
  if store.documents.isEmpty then []
  else
    match embed query with
    | none => []
    | some query_embedding =>
      if query_embedding.isEmpty then []
      else
        (topIndices (simRow sim query_embedding store) top_k).map (fun idx =>
          { doc := store.documents.getD idx default,
            similarity := (simRow sim query_embedding store).getD idx 0 })

/-- On a nonempty store with an available, nonempty query embedding, `search`
is the map over the reversed-and-truncated argsort. -/
theorem search_eq_map (store : VectorStore) (embed : List Char → Option (List ℚ))
    (sim : List ℚ → List ℚ → ℚ) (query : List Char) (q : List ℚ) (top_k : Nat)
    (hne : store.documents ≠ []) (hq : embed query = some q) (hqne : q ≠ []) :
    store.search embed sim query top_k
      = (topIndices (simRow sim q store) top_k).map (fun idx =>
          { doc := store.documents.getD idx default,
            similarity := (simRow sim q store).getD idx 0 }) := by
  unfold VectorStore.search
  rw [hq]
  simp [List.isEmpty_iff, hne, hqne]

/-- The reversed argsort is strictly descending in the lexicographic order
(similarity first, then index): later-inserted records come first among
equal similarities. -/
theorem argsort_reverse_pairwise (sims : List ℚ) :
    List.Pairwise
      (fun i j => sims.getD j 0 < sims.getD i 0
        ∨ (sims.getD i 0 = sims.getD j 0 ∧ j < i))
      (argsort sims).reverse := by
  have hsorted : List.Pairwise (argsortLe sims) (argsort sims) :=
    List.sorted_insertionSort (argsortLe sims) (List.range sims.length)
  have hrev : List.Pairwise (fun i j => argsortLe sims j i) (argsort sims).reverse :=
    List.pairwise_reverse.mpr hsorted
  have hperm : (argsort sims).Perm (List.range sims.length) :=
    List.perm_insertionSort (argsortLe sims) (List.range sims.length)
  have hnodup : (argsort sims).reverse.Nodup :=
    List.nodup_reverse.mpr (hperm.symm.nodup (List.nodup_range sims.length))
  have hand := hrev.and hnodup
  refine hand.imp ?_
  rintro a b ⟨hba, hab⟩
  rcases hba with h | ⟨heq, hle⟩
  · exact Or.inl h
  · exact Or.inr ⟨heq.symm, lt_of_le_of_ne hle (fun e => hab e.symm)⟩

/-- The reversed argsort is a permutation of all the indices. -/
theorem argsort_reverse_perm (sims : List ℚ) :
    (argsort sims).reverse.Perm (List.range sims.length) :=
  ((argsort sims).reverse_perm).trans
    (List.perm_insertionSort (argsortLe sims) (List.range sims.length))

/-- Reading every position of a list through `getD` rebuilds the list. -/
theorem map_getD_range {α : Type} [Inhabited α] (l : List α) :
    (List.range l.length).map (fun i => l.getD i default) = l := by
  apply List.ext_getElem (by simp)
  intro n h1 h2
  simp only [List.getElem_map, List.getElem_range]
  exact List.getD_eq_getElem l default h2

/-! ## Claim C1: ranking of search results -/

/-- C1, amended: on a nonempty store with an available, nonempty query
embedding (and the length invariant), `search` returns the `top_k`-prefix of
a full descending ranking of all stored records: the chosen index list is
strictly descending in (similarity, insertion index) — so the results come
in descending similarity order, but among records of EQUAL similarity the
one inserted LATER appears first (the reversal of the ascending argsort
flips the stable tie order) — and the full reversed argsort ranges over
every stored record exactly once. -/
theorem search_ranking (store : VectorStore) (embed : List Char → Option (List ℚ))
    (sim : List ℚ → List ℚ → ℚ) (query : List Char) (q : List ℚ) (top_k : Nat)
    (hne : store.documents ≠ []) (hq : embed query = some q) (hqne : q ≠ [])
    (hlen : store.documents.length = store.embeddings.length) :
    store.search embed sim query top_k
        = (topIndices (simRow sim q store) top_k).map (fun idx =>
            { doc := store.documents.getD idx default,
              similarity := (simRow sim q store).getD idx 0 })
      ∧ List.Pairwise
          (fun i j => (simRow sim q store).getD j 0 < (simRow sim q store).getD i 0
            ∨ ((simRow sim q store).getD i 0 = (simRow sim q store).getD j 0 ∧ j < i))
          (topIndices (simRow sim q store) top_k)
      ∧ List.Pairwise (· ≥ ·) ((store.search embed sim query top_k).map SearchResult.similarity)
      ∧ (argsort (simRow sim q store)).reverse.Perm (List.range store.documents.length) := by
  have hs := search_eq_map store embed sim query q top_k hne hq hqne
  have hpair := (argsort_reverse_pairwise (simRow sim q store)).sublist
      (List.take_sublist top_k (argsort (simRow sim q store)).reverse)
  refine ⟨hs, hpair, ?_, ?_⟩
  · rw [hs, List.map_map, List.pairwise_map]
    refine hpair.imp ?_
    rintro a b (h | ⟨h, _⟩)
    · simp only [Function.comp_apply]
      exact le_of_lt h
    · simp only [Function.comp_apply]
      exact ge_of_eq h
  · have hlen2 : (simRow sim q store).length = store.documents.length := by
      simp [simRow, hlen]
    rw [← hlen2]
    exact argsort_reverse_perm (simRow sim q store)

/-- Concrete documents and stores used by the closed theorems below. -/
def doc0 : Document := ⟨"chunk zero".data, "a.txt".data, 0, ".txt".data, false⟩

def doc1 : Document := ⟨"chunk one".data, "a.txt".data, 1, ".txt".data, false⟩

def emptyStore : VectorStore := ⟨[], []⟩

def oneStore : VectorStore := ⟨[doc0], [[1]]⟩

/-- A store holding the SAME embedding vector twice, so that every
similarity measure — cosine similarity in particular — scores the two
records equally. -/
def tieStore : VectorStore := ⟨[doc0, doc1], [[3/5, 4/5], [3/5, 4/5]]⟩

def embedOne : List Char → Option (List ℚ) := fun _ => some [1]

def embedNone : List Char → Option (List ℚ) := fun _ => none

/-- Constant similarity `1`.  On `tieStore` this is exactly what cosine
similarity gives: the stored vectors equal the query vector `[3/5, 4/5]`,
which is a unit vector (`dotQ_unit`), so `cos = 1` for both records. -/
def simOne : List ℚ → List ℚ → ℚ := fun _ _ => 1

/-- Exact dot product of two rational vectors; on unit vectors it IS the
cosine similarity (the normalising denominator is 1). -/
def dotQ (x y : List ℚ) : ℚ := (List.zipWith (· * ·) x y).sum

/-- C1, counterexample to the claim as stated: `tieStore` holds two records
whose embeddings are the same unit vector `[3/5, 4/5]`, queried with that
very vector, so both cosine similarities are exactly `1` (`simOne` realises
that similarity row, and `dotQ` witnesses `cos = 1`).  The record inserted
LATER (`doc1`, `chunk_id = 1`) is returned FIRST: the reversal of the
ascending argsort puts equal-similarity ties in reverse insertion order,
not in insertion order. -/
theorem search_tie_breaks_reverse_order :
    tieStore.search (fun _ => some [3/5, 4/5]) simOne "query".data 2
        = [⟨doc1, 1⟩, ⟨doc0, 1⟩]
      ∧ tieStore.embeddings.getD 0 [] = tieStore.embeddings.getD 1 []
      ∧ dotQ [3/5, 4/5] [3/5, 4/5] = 1
      ∧ doc0.chunk_id = 0 ∧ doc1.chunk_id = 1 ∧ doc0 ≠ doc1 := by
  refine ⟨by decide, rfl, by norm_num [dotQ], rfl, rfl, by decide⟩

/-- Witness for `search_ranking` at the one-document store. -/
theorem search_ranking_witness :
    oneStore.search embedOne simOne "q".data 1
        = (topIndices (simRow simOne [1] oneStore) 1).map (fun idx =>
            { doc := oneStore.documents.getD idx default,
              similarity := (simRow simOne [1] oneStore).getD idx 0 })
      ∧ List.Pairwise
          (fun i j => (simRow simOne [1] oneStore).getD j 0 < (simRow simOne [1] oneStore).getD i 0
            ∨ ((simRow simOne [1] oneStore).getD i 0 = (simRow simOne [1] oneStore).getD j 0 ∧ j < i))
          (topIndices (simRow simOne [1] oneStore) 1)
      ∧ List.Pairwise (· ≥ ·) ((oneStore.search embedOne simOne "q".data 1).map SearchResult.similarity)
      ∧ (argsort (simRow simOne [1] oneStore)).reverse.Perm (List.range oneStore.documents.length) :=
  search_ranking oneStore embedOne simOne "q".data [1] 1 (by decide) rfl (by decide) rfl

/-! ## Claim C10: result count and completeness -/

/-- C10, confirmed: on a nonempty store of `N` records (with the length
invariant) and an available, nonempty query embedding, `search` returns
exactly `min top_k N` results, and when `top_k ≥ N` the returned documents
are a permutation of all stored documents (each appears exactly once). -/
theorem search_count_min (store : VectorStore) (embed : List Char → Option (List ℚ))
    (sim : List ℚ → List ℚ → ℚ) (query : List Char) (q : List ℚ) (top_k : Nat)
    (hne : store.documents ≠ []) (hq : embed query = some q) (hqne : q ≠ [])
    (hlen : store.documents.length = store.embeddings.length) :
    (store.search embed sim query top_k).length = min top_k store.documents.length
      ∧ (store.documents.length ≤ top_k →
          ((store.search embed sim query top_k).map SearchResult.doc).Perm store.documents) := by
  have hs := search_eq_map store embed sim query q top_k hne hq hqne
  have hlen2 : (simRow sim q store).length = store.documents.length := by
    simp [simRow, hlen]
  have hrevlen : (argsort (simRow sim q store)).reverse.length = store.documents.length := by
    simp [argsort, List.length_insertionSort, hlen2]
  constructor
  · rw [hs, List.length_map, topIndices, List.length_take, hrevlen]
  · intro htop
    rw [hs, List.map_map]
    have htake : topIndices (simRow sim q store) top_k
        = (argsort (simRow sim q store)).reverse := by
      rw [topIndices, List.take_of_length_le (by rw [hrevlen]; exact htop)]
    rw [htake]
    have hperm : (argsort (simRow sim q store)).reverse.Perm
        (List.range store.documents.length) := by
      rw [← hlen2]
      exact argsort_reverse_perm (simRow sim q store)
    have := hperm.map (fun idx => store.documents.getD idx default)
    rw [map_getD_range store.documents] at this
    exact this

/-- Witness for `search_count_min` at the one-document store, `top_k = 5`. -/
theorem search_count_min_witness :
    (oneStore.search embedOne simOne "q".data 5).length = min 5 oneStore.documents.length
      ∧ (oneStore.documents.length ≤ 5 →
          ((oneStore.search embedOne simOne "q".data 5).map SearchResult.doc).Perm oneStore.documents) :=
  search_count_min oneStore embedOne simOne "q".data [1] 5 (by decide) rfl (by decide) rfl

/-! ## Claim C4: the `len(documents) == len(embeddings)` invariant -/

/-- `VectorStore.load_store` (src/utils/rag.py lines 109-118) as a function
of what the two pickle files hold: `none` models a file that is absent or
whose load raises.  The body reads `documents.pkl` first and `embeddings.pkl`
second inside one `try`: when reading the embeddings fails, the exception is
caught AFTER `self.documents` was already assigned, so the embeddings keep
their initial value `[]`.  No length check is performed anywhere. -/
def load_store (docsFile : Option (List Document)) (embsFile : Option (List (List ℚ))) :
    VectorStore :=
  match docsFile with
  | none => { documents := [], embeddings := [] }
  | some docs =>
    match embsFile with
    | none => { documents := docs, embeddings := [] }
    | some embs => { documents := docs, embeddings := embs }

/-- `VectorStore.add_documents` (src/utils/rag.py lines 131-140):
`AzureEmbeddingModel.get_embeddings` is the parameter `embedBatch`; the
`for doc, embedding in zip(documents, embeddings)` loop appends pairwise,
truncating to the shorter of the two lists exactly like Python's `zip`.
`save_store` only performs I/O and changes no in-memory state. -/
def VectorStore.add_documents (store : VectorStore)
    (embedBatch : List (List Char) → List (List ℚ)) (docs : List Document) : VectorStore :=
  { documents := store.documents
      ++ ((docs.zip (embedBatch (docs.map Document.content))).map Prod.fst),
    embeddings := store.embeddings
      ++ ((docs.zip (embedBatch (docs.map Document.content))).map Prod.snd) }

/-- `add_documents` does preserve the invariant, whatever the embedding
batch returns: the zip keeps the two appends the same length. -/
theorem add_documents_preserves_invariant (store : VectorStore)
    (embedBatch : List (List Char) → List (List ℚ)) (docs : List Document)
    (hinv : store.documents.length = store.embeddings.length) :
    (store.add_documents embedBatch docs).documents.length
      = (store.add_documents embedBatch docs).embeddings.length := by
  simp [VectorStore.add_documents, hinv]

/-- Witness for `add_documents_preserves_invariant` on the one-document
store. -/
theorem add_documents_preserves_invariant_witness :
    oneStore.documents.length = oneStore.embeddings.length
      ∧ (oneStore.add_documents (fun ts => ts.map (fun _ => [1])) [doc1]).documents.length
          = (oneStore.add_documents (fun ts => ts.map (fun _ => [1])) [doc1]).embeddings.length :=
  ⟨rfl, add_documents_preserves_invariant oneStore (fun ts => ts.map (fun _ => [1])) [doc1] rfl⟩

/-- C4 fails in the code: `load_store` never validates the persisted pair.
When `documents.pkl` loads one document and `embeddings.pkl` is missing,
unreadable, or holds a different number of rows, the store comes up with
`len(documents) = 1 ≠ 0 = len(embeddings)` — the invariant is broken right
after construction instead of the pair being rejected or ignored. -/
theorem load_store_accepts_mismatched_pair :
    ((load_store (some [doc0]) none).documents.length = 1
        ∧ (load_store (some [doc0]) none).embeddings.length = 0)
      ∧ ((load_store (some [doc0]) (some [])).documents.length = 1
        ∧ (load_store (some [doc0]) (some [])).embeddings.length = 0) := by
  refine ⟨⟨rfl, rfl⟩, ⟨rfl, rfl⟩⟩

/-! ## Claim C8: search on no data -/

def simZero : List ℚ → List ℚ → ℚ := fun _ _ => 0

/-- C8, confirmed: `search` returns the empty list — it is a total function,
so it cannot raise — when the store holds no documents (`if not
self.documents`) or when the embedding provider returns no vector for the
query (`if not query_embedding`). -/
theorem search_no_data_empty (store : VectorStore) (embed : List Char → Option (List ℚ))
    (sim : List ℚ → List ℚ → ℚ) (query : List Char) (top_k : Nat)
    (h : store.documents = [] ∨ embed query = none) :
    store.search embed sim query top_k = [] := by
  unfold VectorStore.search
  rcases h with h | h
  · simp [h]
  · rw [h]
    split
    · rfl
    · rfl

/-- Witness for `search_no_data_empty`: the empty store, and separately a
provider returning no vector on a nonempty store. -/
theorem search_no_data_empty_witness :
    (emptyStore.documents = [] ∨ embedOne "x".data = none)
      ∧ emptyStore.search embedOne simZero "x".data 5 = []
      ∧ (oneStore.documents = [] ∨ embedNone "x".data = none)
      ∧ oneStore.search embedNone simZero "x".data 5 = [] :=
  ⟨Or.inl rfl, search_no_data_empty emptyStore embedOne simZero "x".data 5 (Or.inl rfl),
    Or.inr rfl, search_no_data_empty oneStore embedNone simZero "x".data 5 (Or.inr rfl)⟩

/-! ## RAGSystem (src/utils/rag.py lines 163-225) -/

/-- Python's `str.lower()` (the queries involved are ASCII, where
`Char.toLower` agrees with it). -/
def lowerStr (s : List Char) : List Char := s.map Char.toLower

/-- Python's substring test `needle in hay`. -/
def substrIn (needle : List Char) : List Char → Bool
  | [] => needle.isPrefixOf []
  | c :: rest => needle.isPrefixOf (c :: rest) || substrIn needle rest

/-- `RAGSystem.financial_keywords` (src/utils/rag.py lines 167-172),
verbatim — note the upper-case letters in `AWS` and `EBITDA`. -/
def financial_keywords : List (List Char) :=
  ["revenue".data, "income".data, "profit".data, "AWS".data, "segment".data,
   "growth".data, "earnings".data, "EBITDA".data, "cash flow".data,
   "operating".data, "margin".data, "investment".data, "shareholder".data,
   "dividend".data, "stock".data, "forecast".data, "guidance".data,
   "financial".data, "metrics".data, "quarterly".data, "annual".data]

/-- `any(keyword in query.lower() for keyword in self.financial_keywords)`:
each keyword is matched LITERALLY (not lowercased) against the lowercased
query, so a keyword containing an upper-case letter can never match. -/
def isFinancialQuery (query : List Char) : Bool :=
  financial_keywords.any (fun kw => substrIn kw (lowerStr query))

/-- `os.path.basename`. -/
def basename (path : List Char) : List Char := (path.splitOn '/').getLastD []

/-- The labelled block `retrieve_relevant_context` builds for result `i`
(counted from 1). -/
def formatSource (i : Nat) (r : SearchResult) : List Char :=
  "Source ".data ++ (Nat.repr i).data ++ " (from ".data ++ basename r.doc.source
    ++ "):\n".data ++ r.doc.content ++ "\n\n".data

/-- `RAGSystem.retrieve_relevant_context` (src/utils/rag.py lines 210-225).
When the search returns nothing the function returns `("", False)` at once —
in particular `is_financial` is `False` no matter what the query says. -/
def retrieve_relevant_context (store : VectorStore) (embed : List Char → Option (List ℚ))
    (sim : List ℚ → List ℚ → ℚ) (query : List Char) (top_k : Nat := 3) :
    List Char × Bool :=
  let results := store.search embed sim query top_k
  if results.isEmpty then ([], false)
  else
    ("Relevant information from documents:\n\n".data
        ++ ((results.enumFrom 1).map (fun p => formatSource p.1 p.2)).flatten,
     isFinancialQuery query)

/-- C5, amended: the `is_financial` flag is `search returned results AND some
keyword occurs literally in the lowercased query` — it is NOT independent of
the search outcome (no results forces `False`), and the matching is not
case-insensitive for the keywords themselves (`AWS`, `EBITDA` never match).
The spec's two examples do hold whenever results exist: a query with
`revenue`/`growth` is financial, the weather query is not. -/
theorem is_financial_iff (store : VectorStore) (embed : List Char → Option (List ℚ))
    (sim : List ℚ → List ℚ → ℚ) (query : List Char) (top_k : Nat) :
    (retrieve_relevant_context store embed sim query top_k).2
        = (!(store.search embed sim query top_k).isEmpty && isFinancialQuery query)
      ∧ isFinancialQuery "What was AWS revenue growth?".data = true
      ∧ isFinancialQuery "What is the weather today?".data = false := by
  refine ⟨?_, by decide, by decide⟩
  unfold retrieve_relevant_context
  by_cases h : (store.search embed sim query top_k).isEmpty = true <;> simp [h]

/-- C5, counterexample to the claim as stated.  First: on an empty store the
spec's own financial example `"What was AWS revenue growth?"` comes back
`is_financial = False` although the keywords `revenue` and `growth` occur in
it — the flag DOES depend on whether results were found.  Second: with
results found, `"Was AWS mentioned?"` is classified NOT financial although
the keyword `AWS` occurs in it case-insensitively — the keyword `AWS` is
compared literally against the lowercased query, so it never matches. -/
theorem is_financial_not_as_specified :
    retrieve_relevant_context emptyStore embedOne simZero
        "What was AWS revenue growth?".data 3 = ([], false)
      ∧ isFinancialQuery "What was AWS revenue growth?".data = true
      ∧ (retrieve_relevant_context oneStore embedOne simOne "Was AWS mentioned?".data 3).2 = false
      ∧ (retrieve_relevant_context oneStore embedOne simOne "Was AWS mentioned?".data 3).1.isEmpty = false
      ∧ substrIn (lowerStr "AWS".data) (lowerStr "Was AWS mentioned?".data) = true := by
  refine ⟨by decide, by decide, by decide, by decide, by decide⟩

/-! ## Web search and the per-turn orchestrator
(src/utils/web_search.py, src/app_original.py lines 142-215) -/

/-- One entry of Tavily's `results` list; `None` fields model missing keys
(`result.get(..., default)`). -/
structure WebResult where
  title : Option (List Char)
  url : Option (List Char)
  content : Option (List Char)

/-- A Tavily response: `{"results": [...], "answer": ...}`. -/
structure SearchResponse where
  results : List WebResult
  answer : Option (List Char)

/-- `WebSearchTool.format_search_results` (src/utils/web_search.py
lines 75-91). -/
def format_search_results (sr : SearchResponse) : List Char :=
  if sr.results.isEmpty then "No relevant financial information found.".data
  else
    "Financial web search results:\n\n".data
      ++ ((sr.results.enumFrom 1).map (fun p =>
            "Source ".data ++ (Nat.repr p.1).data ++ ":\nTitle: ".data
              ++ p.2.title.getD "N/A".data ++ "\nURL: ".data ++ p.2.url.getD "N/A".data
              ++ "\nContent: ".data ++ (p.2.content.getD "N/A".data).take 500
              ++ "...\n\n".data)).flatten
      ++ (if (sr.answer.getD []).isEmpty then []
          else "Quick Answer: ".data ++ sr.answer.getD [] ++ "\n".data)

/-- `web_search_indicators` of `should_use_web_search`
(src/app_original.py lines 210-214), verbatim — note the upper-case
quarter labels `Q1` … `Q4`. -/
def web_search_indicators : List (List Char) :=
  ["latest".data, "recent".data, "current".data, "news".data, "today".data,
   "2024".data, "2025".data, "what's happening".data, "breaking".data,
   "update".data, "trend".data, "stock price".data, "analyst".data,
   "rating".data, "target price".data, "Q1".data, "Q2".data, "Q3".data,
   "Q4".data]

/-- `should_use_web_search` (src/app_original.py lines 208-215): each
indicator is matched literally against the lowercased prompt. -/
def should_use_web_search (prompt : List Char) : Bool :=
  web_search_indicators.any (fun kw => substrIn kw (lowerStr prompt))

/-- What the context-gathering part of one turn produces. -/
structure TurnContext where
  context : List Char
  sources : List (List Char)
  used_web_search : Bool

/-- The filename tested by
`"Amazon-com-Inc-2023-Annual-Report.pdf" in rag_context`. -/
def defaultReportName : List Char := "Amazon-com-Inc-2023-Annual-Report.pdf".data

/-- The context-gathering and tool-dispatch steps of `generate_response`
(src/app_original.py lines 142-169): everything before the prompt assembly
and the model call, which only consume the gathered state.  `webSearch`
models `WebSearchTool.search`; `used_web_search` records whether the
web-search branch ran. -/
def generate_response (store : VectorStore) (embed : List Char → Option (List ℚ))
    (sim : List ℚ → List ℚ → ℚ) (webSearch : List Char → SearchResponse)
    (prompt : List Char) (use_rag use_web_search : Bool) : TurnContext :=
  let step1 : List Char × List (List Char) × Bool :=
    if use_rag then
      let rc := retrieve_relevant_context store embed sim prompt 3
      if !rc.1.isEmpty then
        (rc.1,
         [if substrIn defaultReportName rc.1 then "📄 Amazon 2023 Annual Report".data
          else "📄 Uploaded Documents".data],
         rc.2 && rc.1.isEmpty)
      else ([], [], rc.2 && rc.1.isEmpty)
    else ([], [], false)
  if use_web_search && (step1.2.2 || should_use_web_search prompt) then
    let search_results := webSearch prompt
    { context := step1.1 ++ "\n".data ++ format_search_results search_results,
      sources := step1.2.1
        ++ (if search_results.results.isEmpty then []
            else (search_results.results.take 3).map
              (fun r => "🌐 ".data ++ r.title.getD "Financial Source".data)),
      used_web_search := true }
  else
    { context := step1.1, sources := step1.2.1, used_web_search := false }

/-- The `needs_web_search` flag as the turn computes it: retrieval was
attempted, classified the query financial, and returned empty context. -/
def needs_web_search_flag (store : VectorStore) (embed : List Char → Option (List ℚ))
    (sim : List ℚ → List ℚ → ℚ) (use_rag : Bool) (prompt : List Char) : Bool :=
  use_rag && ((retrieve_relevant_context store embed sim prompt 3).2
    && (retrieve_relevant_context store embed sim prompt 3).1.isEmpty)

/-- An external search with no results (its value never affects the
`used_web_search` flag). -/
def webEmpty : List Char → SearchResponse := fun _ => ⟨[], none⟩

/-- C6, amended: the web search runs exactly when it is enabled AND (the
`needs_web_search` flag is set OR the prompt matches a trigger word
LITERALLY in the lowercased prompt — so the upper-case triggers `Q1` … `Q4`
never fire; the matching is not case-insensitive on the trigger side).  The
spec's two examples hold: `"latest stock price"` triggers the search even
though retrieval found context and `needs_web_search` is false, and
`"Summarize the document"` does not trigger it when retrieval succeeded. -/
theorem web_search_decision (store : VectorStore) (embed : List Char → Option (List ℚ))
    (sim : List ℚ → List ℚ → ℚ) (webSearch : List Char → SearchResponse)
    (prompt : List Char) (use_rag use_web_search : Bool) :
    (generate_response store embed sim webSearch prompt use_rag use_web_search).used_web_search
        = (use_web_search
            && (needs_web_search_flag store embed sim use_rag prompt
                || should_use_web_search prompt))
      ∧ (generate_response oneStore embedOne simOne webEmpty
            "latest stock price".data true true).used_web_search = true
      ∧ (retrieve_relevant_context oneStore embedOne simOne
            "latest stock price".data 3).1.isEmpty = false
      ∧ needs_web_search_flag oneStore embedOne simOne true "latest stock price".data = false
      ∧ (generate_response oneStore embedOne simOne webEmpty
            "Summarize the document".data true true).used_web_search = false
      ∧ (retrieve_relevant_context oneStore embedOne simOne
            "Summarize the document".data 3).1.isEmpty = false := by
  refine ⟨?_, by decide, by decide, by decide, by decide, by decide⟩
  unfold generate_response needs_web_search_flag
  by_cases hr : use_rag
  · by_cases hc : (retrieve_relevant_context store embed sim prompt 3).1.isEmpty = true
    · simp [hr, hc, apply_ite TurnContext.used_web_search]
    · simp [hr, hc, apply_ite TurnContext.used_web_search]
  · simp [hr, apply_ite TurnContext.used_web_search]

/-- C6, counterexample to the claim as stated: the trigger list contains
`Q1`, and the query `"Q1 earnings"` contains `Q1` — case-insensitively it
matches — yet with web search enabled no web search is performed: the
lowercased prompt `"q1 earnings"` contains no literal trigger word. -/
theorem web_search_trigger_not_case_insensitive :
    (generate_response oneStore embedOne simOne webEmpty
        "Q1 earnings".data false true).used_web_search = false
      ∧ web_search_indicators.contains "Q1".data = true
      ∧ substrIn (lowerStr "Q1".data) (lowerStr "Q1 earnings".data) = true := by
  refine ⟨by decide, by decide, by decide⟩

/-! ## Claim C9: `RAGSystem.process_and_store_documents`
(src/utils/rag.py lines 175-208) -/

/-- `os.path.splitext(file_path)[1].lower()`: the (lowercased) extension,
i.e. the last dot and what follows it, `""` when the path has no dot.
(Python's `splitext` additionally ignores leading dots of a bare filename;
the paths compared here — ordinary `dir/name.ext` uploads — agree.) -/
def fileExt (path : List Char) : List Char :=
  if (path.splitOn '.').length ≤ 1 then []
  else lowerStr ('.' :: (path.splitOn '.').getLastD [])

/-- One iteration of the loop of `process_and_store_documents`: the document
records contributed by one path.  `fileExists` models `os.path.exists`;
`pdfText`, `docxText`, `txtText` model the three extractors of
`DocumentProcessor`, each of which returns the extracted text or `""` when
extraction fails (their `except` branch, src/utils/rag.py lines 35-67).
A missing file or an unsupported extension is skipped (`continue`); the
chunking uses the default parameters `chunk_size=1000, overlap=200` (the
fuel always suffices, by `chunk_text_eq_chunkAux`). -/
def docsForFile (fileExists : List Char → Bool)
    (pdfText docxText txtText : List Char → List Char) (path : List Char) :
    List Document :=
  if !fileExists path then []
  else
    match (if fileExt path == ".pdf".data then some (pdfText path)
           else if fileExt path == ".docx".data then some (docxText path)
           else if fileExt path == ".txt".data then some (txtText path)
           else none) with
    | none => []
    | some text =>
      ((chunk_text text 1000 200).getD []).enum.map (fun p =>
        { content := p.2, source := path, chunk_id := p.1,
          file_type := fileExt path, is_default := false })

/-- `process_and_store_documents`: the for-loop accumulates every path's
documents in order (the concatenation `flatMap`), adds them all to the
vector store in one `add_documents` call, and returns `len(documents)`. -/
def process_and_store_documents (fileExists : List Char → Bool)
    (pdfText docxText txtText : List Char → List Char)
    (embedBatch : List (List Char) → List (List ℚ))
    (store : VectorStore) (file_paths : List (List Char)) : VectorStore × Nat :=
  (store.add_documents embedBatch
      (file_paths.flatMap (docsForFile fileExists pdfText docxText txtText)),
   (file_paths.flatMap (docsForFile fileExists pdfText docxText txtText)).length)

/-- Every path is present; used by the concrete batch below. -/
def fsAll : List Char → Bool := fun _ => true

/-- A TXT extractor knowing two small files. -/
def txtExtract : List Char → List Char := fun p =>
  if p == "a.txt".data then "alpha text".data
  else if p == "c.txt".data then "gamma text".data
  else []

/-- A PDF extractor whose every file is corrupt: the `except` branch of
`extract_text_from_pdf` returns `""`. -/
def pdfCorrupt : List Char → List Char := fun _ => []

/-- A batch embedder returning one vector per text. -/
def embedEach : List (List Char) → List (List ℚ) := fun ts => ts.map (fun _ => [1])

/-- C9, confirmed: the returned count is the sum of the per-file chunk
counts, every file being processed independently (a failed extraction
yields `""`, which chunks to `[]` and contributes `0`, without aborting the
batch).  Concretely, the 3-file batch `[a.txt, b.pdf, c.txt]` whose PDF is
corrupt returns `2` — one chunk from each of the two small valid files,
exactly what the 2-file batch without the corrupt file returns — and the
corrupt file alone contributes no documents. -/
theorem process_count (fileExists : List Char → Bool)
    (pdfText docxText txtText : List Char → List Char)
    (embedBatch : List (List Char) → List (List ℚ))
    (store : VectorStore) (file_paths : List (List Char)) :
    (process_and_store_documents fileExists pdfText docxText txtText embedBatch
          store file_paths).2
        = (file_paths.map
            (fun path => (docsForFile fileExists pdfText docxText txtText path).length)).sum
      ∧ (process_and_store_documents fsAll pdfCorrupt txtExtract txtExtract embedEach
            emptyStore ["a.txt".data, "b.pdf".data, "c.txt".data]).2 = 2
      ∧ (process_and_store_documents fsAll pdfCorrupt txtExtract txtExtract embedEach
            emptyStore ["a.txt".data, "c.txt".data]).2 = 2
      ∧ docsForFile fsAll pdfCorrupt txtExtract txtExtract "b.pdf".data = [] := by
  refine ⟨?_, by decide, by decide, by decide⟩
  simp only [process_and_store_documents, List.length_flatMap]
  rfl
